import Mathlib

/-!
# Verification of the TopoLVM LVMD core against its specification

This development gives a shallow embedding, in Lean 4, of the core pieces of
the TopoLVM repository that the specification talks about:

* the `lv_attr` attribute parser and health verifier
  (`internal/lvmd/command/lvm_lv_attr.go`),
* the volume-group / logical-volume / thin-pool domain model
  (`lvmd/command/lvm.go`),
* the controller-side capacity conversion and minimum-allocation logic
  (`internal/driver`).

Go machine integers (`uint64`, `int64`) are modelled as `Nat` resp. `Int`;
no operation proved about here relies on wrap-around, and the one narrowing
conversion in the source (`uint32(lv.major)`) is modelled with an explicit
`% 2^32`.  Subprocess execution is modelled by an explicit environment
(`LvmCtx`) that maps a query to the rows the `lvm` tool would report and an
outcome for mutating calls; functions that spawn subprocesses additionally
return the list of argument vectors they invoked.  Fallible Go functions
returning `(T, error)` are modelled with `Except`/`Option`.
-/

/-! ## Attribute parser (`internal/lvmd/command/lvm_lv_attr.go`)

Each attribute position is a single code point (`rune` in Go); the code sets
are those of `lvs(8)`.  Only the constants that the theorems below mention
are reproduced here; all fields are plain `Char`s exactly as in the source,
where each field type is a defined rune type. -/

def VolumeTypeRAID : Char := 'r'
def VolumeTypeRAIDNoInitialSync : Char := 'R'
def VolumeTypeThinVolume : Char := 'V'
def VolumeTypeThinPool : Char := 't'

def PermissionsWriteable : Char := 'w'

def AllocationPolicyInherited : Char := 'i'

def MinorFalse : Char := '-'

def StateActive : Char := 'a'
def StateSuspended : Char := 's'
def StateInvalidSnapshot : Char := 'I'
def StateSuspendedSnapshot : Char := 'S'
def StateSnapshotMergeFailed : Char := 'm'
def StateSuspendedSnapshotMergeFailed : Char := 'M'
def StateMappedDevicePresentWithoutTables : Char := 'd'
def StateMappedDevicePresentWithInactiveTables : Char := 'i'
def StateHistorical : Char := 'h'
def StateThinPoolCheckNeeded : Char := 'c'
def StateSuspendedThinPoolCheckNeeded : Char := 'C'
def StateUnknown : Char := 'X'

def OpenFalse : Char := '-'
def OpenUnknown : Char := 'X'

def OpenTargetRaid : Char := 'r'
def OpenTargetThin : Char := 't'

def ZeroTrue : Char := 'z'
def ZeroFalse : Char := '-'

def VolumeHealthPartialActivation : Char := 'p'
def VolumeHealthUnknown : Char := 'X'
def VolumeHealthMissing : Char := '-'
def VolumeHealthRAIDRefreshNeeded : Char := 'r'
def VolumeHealthRAIDMismatchesExist : Char := 'm'
def VolumeHealthRAIDWriteMostly : Char := 'w'
def VolumeHealthRAIDReshaping : Char := 's'
def VolumeHealthRAIDReshapeRemoved : Char := 'R'
def VolumeHealthThinFailed : Char := 'F'
def VolumeHealthThinPoolOutOfDataSpace : Char := 'D'
def VolumeHealthThinPoolMetadataReadOnly : Char := 'M'
def VolumeHealthWriteCacheError : Char := 'E'

/-- `LvAttr` is the structured form of the 10-character `lv_attr` string.
The Go struct embeds nine single-rune types by name (`VolumeType`,
`Permissions`, ..., `VolumeHealth`); each field here is the corresponding
`Char`.  Position 10 (skip-check) is not stored. -/
structure LvAttr where
  VolumeType : Char
  Permissions : Char
  AllocationPolicy : Char
  Minor : Char
  State : Char
  Open : Char
  OpenTarget : Char
  Zero : Char
  VolumeHealth : Char
  deriving DecidableEq, Repr

/-- `ParsedLvAttr` fails (Go: returns an `invalid length lv_attr` error)
unless the input has exactly 10 characters, and otherwise builds the record
from the characters at indices 0 through 8; index 9 is ignored. -/
def ParsedLvAttr (raw : String) : Option LvAttr :=
  match raw.data with
  | [c0, c1, c2, c3, c4, c5, c6, c7, c8, _c9] =>
    some ⟨c0, c1, c2, c3, c4, c5, c6, c7, c8⟩
  | _ => none

/-- `LvAttr.String` formats the nine stored fields with
`"%c%c%c%c%c%c%c%c%c"`. -/
def LvAttr.String (l : LvAttr) : String :=
  ⟨[l.VolumeType, l.Permissions, l.AllocationPolicy, l.Minor, l.State,
    l.Open, l.OpenTarget, l.Zero, l.VolumeHealth]⟩

/-! Reasons returned by `VerifyHealth`; each is an abbreviation of the
corresponding Go error message. -/

def reasonPartialActivation : String := "found partial activation of physical volumes"
def reasonUnknownHealth : String := "unknown volume health reported"
def reasonWriteCacheError : String := "write cache error"
def reasonThinPoolFailed : String := "thin pool encounters serious failures"
def reasonThinPoolOutOfDataSpace : String := "thin pool is out of data space"
def reasonThinPoolMetadataReadOnly : String := "metadata read only"
def reasonThinVolumeFailed : String := "the underlying thin pool entered a failed state"
def reasonRaidRefreshNeeded : String := "RAID volume requires a refresh"
def reasonRaidMismatchesExist : String := "RAID volume has portions of the array that are not coherent"
def reasonRaidReshaping : String := "RAID volume is currently reshaping"
def reasonRaidReshapeRemoved : String := "RAID volume signifies freed raid images after reshaping"
def reasonRaidWriteMostly : String := "RAID volume is marked as write-mostly"
def reasonSuspended : String := "logical volume is in a suspended state"
def reasonInvalidSnapshot : String := "logical volume is an invalid snapshot"
def reasonSnapshotMergeFailed : String := "snapshot merge failed"
def reasonInactiveTables : String := "mapped device present with inactive tables"
def reasonWithoutTables : String := "mapped device present without tables"
def reasonThinPoolCheckNeeded : String := "a thin pool check is needed"
def reasonUnknownState : String := "unknown volume state"
def reasonHistorical : String := "historical volume state"
def reasonOpenUnknown : String := "logical volume underlying device state is unknown"

/-- `VerifyHealth` mirrors the Go method statement by statement: three
universal health checks, then the `VolumeType`-conditional health checks
(thin pool, thin volume, RAID), then the `State` switch, then the `Open`
switch.  `none` is the healthy (`nil` error) result. -/
def VerifyHealth (l : LvAttr) : Option String :=
  if l.VolumeHealth = VolumeHealthPartialActivation then some reasonPartialActivation
  else if l.VolumeHealth = VolumeHealthUnknown then some reasonUnknownHealth
  else if l.VolumeHealth = VolumeHealthWriteCacheError then some reasonWriteCacheError
  else if l.VolumeType = VolumeTypeThinPool ∧ l.VolumeHealth = VolumeHealthThinFailed then
    some reasonThinPoolFailed
  else if l.VolumeType = VolumeTypeThinPool ∧ l.VolumeHealth = VolumeHealthThinPoolOutOfDataSpace then
    some reasonThinPoolOutOfDataSpace
  else if l.VolumeType = VolumeTypeThinPool ∧ l.VolumeHealth = VolumeHealthThinPoolMetadataReadOnly then
    some reasonThinPoolMetadataReadOnly
  else if l.VolumeType = VolumeTypeThinVolume ∧ l.VolumeHealth = VolumeHealthThinFailed then
    some reasonThinVolumeFailed
  else if (l.VolumeType = VolumeTypeRAID ∨ l.VolumeType = VolumeTypeRAIDNoInitialSync) ∧
      l.VolumeHealth = VolumeHealthRAIDRefreshNeeded then
    some reasonRaidRefreshNeeded
  else if (l.VolumeType = VolumeTypeRAID ∨ l.VolumeType = VolumeTypeRAIDNoInitialSync) ∧
      l.VolumeHealth = VolumeHealthRAIDMismatchesExist then
    some reasonRaidMismatchesExist
  else if (l.VolumeType = VolumeTypeRAID ∨ l.VolumeType = VolumeTypeRAIDNoInitialSync) ∧
      l.VolumeHealth = VolumeHealthRAIDReshaping then
    some reasonRaidReshaping
  else if (l.VolumeType = VolumeTypeRAID ∨ l.VolumeType = VolumeTypeRAIDNoInitialSync) ∧
      l.VolumeHealth = VolumeHealthRAIDReshapeRemoved then
    some reasonRaidReshapeRemoved
  else if (l.VolumeType = VolumeTypeRAID ∨ l.VolumeType = VolumeTypeRAIDNoInitialSync) ∧
      l.VolumeHealth = VolumeHealthRAIDWriteMostly then
    some reasonRaidWriteMostly
  else if l.State = StateSuspended ∨ l.State = StateSuspendedSnapshot then
    some reasonSuspended
  else if l.State = StateInvalidSnapshot then some reasonInvalidSnapshot
  else if l.State = StateSuspendedSnapshotMergeFailed ∨ l.State = StateSnapshotMergeFailed then
    some reasonSnapshotMergeFailed
  else if l.State = StateMappedDevicePresentWithInactiveTables then some reasonInactiveTables
  else if l.State = StateMappedDevicePresentWithoutTables then some reasonWithoutTables
  else if l.State = StateSuspendedThinPoolCheckNeeded ∨ l.State = StateThinPoolCheckNeeded then
    some reasonThinPoolCheckNeeded
  else if l.State = StateUnknown then some reasonUnknownState
  else if l.State = StateHistorical then some reasonHistorical
  else if l.Open = OpenUnknown then some reasonOpenUnknown
  else none

/-- C8: `ParsedLvAttr` fails exactly on inputs whose length is not 10, and on
10-character inputs yields the record of the characters at indices 0..8
(positions 1 through 9). -/
theorem parsedLvAttr_spec (raw : String) :
    (ParsedLvAttr raw = none ↔ raw.length ≠ 10) ∧
    (raw.length = 10 →
      ParsedLvAttr raw =
        some ⟨raw.data.getD 0 ' ', raw.data.getD 1 ' ', raw.data.getD 2 ' ',
          raw.data.getD 3 ' ', raw.data.getD 4 ' ', raw.data.getD 5 ' ',
          raw.data.getD 6 ' ', raw.data.getD 7 ' ', raw.data.getD 8 ' '⟩) := by
  obtain ⟨l⟩ := raw
  rcases l with _|⟨c0,_|⟨c1,_|⟨c2,_|⟨c3,_|⟨c4,_|⟨c5,_|⟨c6,_|⟨c7,_|⟨c8,_|⟨c9,_|⟨c10,rest⟩⟩⟩⟩⟩⟩⟩⟩⟩⟩⟩ <;>
    simp [ParsedLvAttr, String.length]

/-- C8 witness: the record parsed from the concrete attribute string
`Rwi-a-r---` (a RAID volume without initial sync). -/
theorem parsedLvAttr_spec_witness :
    ParsedLvAttr ("Rwi-a-r---") =
      some ⟨VolumeTypeRAIDNoInitialSync, PermissionsWriteable, AllocationPolicyInherited,
        MinorFalse, StateActive, OpenFalse, OpenTargetRaid, ZeroFalse, VolumeHealthMissing⟩ := by
  exact ((parsedLvAttr_spec ("Rwi-a-r---")).2 (by decide)).trans (by decide)

/-- C1 counterexample: the parse → format round trip is NOT the identity on
well-formed 10-character inputs, because `LvAttr.String` prints only the nine
stored fields and drops the tenth (skip-check) character. -/
theorem lvattr_roundtrip_counterexample :
    (ParsedLvAttr ("twi-a-tz--")).map LvAttr.String ≠ some ("twi-a-tz--") := by
  decide

/-- C1 (amended): formatting the parsed record reproduces exactly the first
nine characters of the input; the tenth (skip-check, reserved) character is
dropped. -/
theorem lvattr_roundtrip_first9 (raw : String) (a : LvAttr)
    (h : ParsedLvAttr raw = some a) :
    (LvAttr.String a).data = raw.data.take 9 := by
  obtain ⟨l⟩ := raw
  rcases l with _|⟨c0,_|⟨c1,_|⟨c2,_|⟨c3,_|⟨c4,_|⟨c5,_|⟨c6,_|⟨c7,_|⟨c8,_|⟨c9,_|⟨c10,rest⟩⟩⟩⟩⟩⟩⟩⟩⟩⟩⟩ <;>
    simp [ParsedLvAttr] at h
  simp [LvAttr.String, ← h]

/-- C1 witness: the amended round trip evaluated on `twi-a-tz--`. -/
theorem lvattr_roundtrip_first9_witness :
    (LvAttr.String ⟨'t', 'w', 'i', '-', 'a', '-', 't', 'z', '-'⟩).data =
      (String.data ("twi-a-tz--")).take 9 :=
  lvattr_roundtrip_first9 ("twi-a-tz--") ⟨'t', 'w', 'i', '-', 'a', '-', 't', 'z', '-'⟩ rfl

/-- C4: a thin pool that is out of data space reports the out-of-data-space
reason even when it is also suspended: the type-specific health rules are
checked before the `State` rules, and the first matching rule wins. -/
theorem verifyHealth_thinPool_outOfDataSpace (l : LvAttr)
    (htype : l.VolumeType = VolumeTypeThinPool)
    (hhealth : l.VolumeHealth = VolumeHealthThinPoolOutOfDataSpace)
    (hstate : l.State = StateSuspended) :
    VerifyHealth l = some reasonThinPoolOutOfDataSpace ∧
      VerifyHealth l ≠ some reasonSuspended := by
  obtain ⟨vt, pm, ap, mi, st, op, ot, ze, vh⟩ := l
  dsimp only at htype hhealth hstate
  subst htype; subst hhealth; subst hstate
  have h1 : VerifyHealth ⟨VolumeTypeThinPool, pm, ap, mi, StateSuspended, op, ot, ze,
      VolumeHealthThinPoolOutOfDataSpace⟩ = some reasonThinPoolOutOfDataSpace := rfl
  refine ⟨h1, ?_⟩
  rw [h1]
  simp [reasonThinPoolOutOfDataSpace, reasonSuspended]

/-- C4 witness: the concrete attribute record of `twi-s-tzD-`. -/
theorem verifyHealth_thinPool_outOfDataSpace_witness :
    VerifyHealth ⟨'t', 'w', 'i', '-', 's', '-', 't', 'z', 'D'⟩ =
        some reasonThinPoolOutOfDataSpace ∧
      VerifyHealth ⟨'t', 'w', 'i', '-', 's', '-', 't', 'z', 'D'⟩ ≠ some reasonSuspended :=
  verifyHealth_thinPool_outOfDataSpace ⟨'t', 'w', 'i', '-', 's', '-', 't', 'z', 'D'⟩ rfl rfl rfl

/-! ## Capacity policy (`internal/driver/controller.go`, `internal/driver/allocation_settings.go`)

The extracted sources contain the tests of `convertRequestCapacityBytes` and
`roundUp`/`roundDown` but not the function bodies themselves, so those are
modelled from the specification (section 4.7) and cross-checked against the
in-tree test tables below.  All divisions happen on non-negative operands,
where Lean's integer division agrees with Go's. -/

/-- Modelled from the spec: the `topolvm.MinimumSectorSize` constant is not
among the extracted sources; the spec introduces it as "e.g. 512".  Every
theorem below is independent of the concrete value. -/
def MinimumSectorSize : Int := 512

/-- Modelled from the spec: the historical 1 GiB default request size. -/
def DefaultSize : Int := 2 ^ 30

/-- Modelled from the spec: `align(x) = ⌈x / sector⌉ × sector`, the smallest
multiple of `multiple` that is ≥ `size` (for non-negative inputs). -/
def roundUp (size multiple : Int) : Int :=
  (size + multiple - 1) / multiple * multiple

/-- Modelled from the spec: the largest multiple of `multiple` that is
≤ `size` (for non-negative inputs). -/
def roundDown (size multiple : Int) : Int :=
  size / multiple * multiple

/-- Error kinds of `convertRequestCapacityBytes` as named by its test. -/
inductive CapacityError where
  | noNegativeRequestBytes
  | noNegativeLimitBytes
  | requestedExceedsLimit
  | resultingRequestIsZero
  deriving DecidableEq, Repr

/-- Modelled from the spec: `convertRequestCapacityBytes` is not among the
extracted sources (only its tests are).  Rules follow spec section 4.7 with
the branch for `required = 0 ∧ limit > 0` taking the round-down reading that
sections 8 (`ConvertRequestCapacity(0, sector+1) = sector`) and the in-tree
test table pin down, and the post-rounding limit check classified as the
exceeds-limit error as the test table requires. -/
def convertRequestCapacityBytes (requestBytes limitBytes : Int) :
    Except CapacityError Int :=
  if requestBytes < 0 then .error .noNegativeRequestBytes
  else if limitBytes < 0 then .error .noNegativeLimitBytes
  else if limitBytes ≠ 0 ∧ requestBytes > limitBytes then .error .requestedExceedsLimit
  else if requestBytes = 0 then
    if limitBytes = 0 then .ok DefaultSize
    else
      let sizeRoundedDown := roundDown (min DefaultSize limitBytes) MinimumSectorSize
      if sizeRoundedDown = 0 then .error .resultingRequestIsZero
      else .ok sizeRoundedDown
  else
    let roundedUp := roundUp requestBytes MinimumSectorSize
    if limitBytes ≠ 0 ∧ roundedUp > limitBytes then .error .requestedExceedsLimit
    else .ok roundedUp

example : convertRequestCapacityBytes (-1) 10 = .error .noNegativeRequestBytes := rfl
example : convertRequestCapacityBytes 10 (-1) = .error .noNegativeLimitBytes := rfl
example : convertRequestCapacityBytes 20 10 = .error .requestedExceedsLimit := rfl
example : convertRequestCapacityBytes (2 ^ 30 + 1) (2 ^ 30 + 1) = .error .requestedExceedsLimit := rfl
example : convertRequestCapacityBytes 0 (MinimumSectorSize - 1) = .error .resultingRequestIsZero := rfl
example : convertRequestCapacityBytes 0 (MinimumSectorSize + 1) = .ok MinimumSectorSize := rfl
example : convertRequestCapacityBytes 1 (MinimumSectorSize * 2) = .ok MinimumSectorSize := rfl
example : convertRequestCapacityBytes 0 (2 ^ 31) = .ok (2 ^ 30) := rfl
example : convertRequestCapacityBytes 1 0 = .ok MinimumSectorSize := rfl
example : convertRequestCapacityBytes (2 ^ 30) (2 ^ 30) = .ok (2 ^ 30) := rfl
example : convertRequestCapacityBytes 0 0 = .ok (2 ^ 30) := rfl

/-- C2: with a positive request and no limit, conversion succeeds and yields
the smallest multiple of the sector size that is at least the request; it is
never an error. -/
theorem convertRequestCapacity_pos_noLimit (required : Int) (h : 0 < required) :
    convertRequestCapacityBytes required 0 = .ok (roundUp required MinimumSectorSize) ∧
    required ≤ roundUp required MinimumSectorSize ∧
    MinimumSectorSize ∣ roundUp required MinimumSectorSize ∧
    (∀ m : Int, MinimumSectorSize ∣ m → required ≤ m →
      roundUp required MinimumSectorSize ≤ m) := by
  refine ⟨?_, ?_, ?_, ?_⟩
  · simp only [convertRequestCapacityBytes]
    rw [if_neg (by omega), if_neg (by omega), if_neg (by simp), if_neg (by omega),
      if_neg (by simp)]
  · simp only [roundUp, MinimumSectorSize]
    omega
  · simp only [roundUp, MinimumSectorSize]
    exact ⟨(required + 512 - 1) / 512, mul_comm _ _⟩
  · intro m hdvd hle
    obtain ⟨c, hc⟩ := hdvd
    simp only [roundUp, MinimumSectorSize] at *
    omega

/-- C2 witness: `convertRequestCapacityBytes 1 0` succeeds with exactly one
sector, rather than returning an error. -/
theorem convertRequestCapacity_pos_noLimit_witness :
    convertRequestCapacityBytes 1 0 = .ok MinimumSectorSize :=
  ((convertRequestCapacity_pos_noLimit 1 (by decide)).1).trans rfl

/-! ## Minimum allocation settings (`internal/driver/allocation_settings.go`)

`resource.Quantity` values are modelled by their integer byte count; Go maps
are modelled by association lists (a missing key yields the zero quantity,
as in Go).  A CSI `VolumeCapability` exposes either a block access type, a
mount access type with a filesystem type, or neither. -/

inductive VolumeCapability where
  | block
  | mount (fsType : String)
  | unspecified
  deriving DecidableEq, Repr

/-- Association-list lookup standing in for Go map indexing with `ok`. -/
def mapFind {α : Type} (m : List (String × α)) (k : String) : Option α :=
  (m.find? (fun p => p.1 == k)).map (fun p => p.2)

/-- `AllocationSettings` holds the per-filesystem and block minimum
quantities. -/
structure AllocationSettings where
  Filesystem : List (String × Int)
  Block : Int
  deriving DecidableEq, Repr

/-- `MinimumAllocationSettings` holds the default settings and the
per-device-class overrides. -/
structure MinimumAllocationSettings where
  Default : AllocationSettings
  ByDeviceClass : List (String × AllocationSettings)
  deriving DecidableEq, Repr

/-- `ControllerAllocationSettings` wraps the minimum allocation settings. -/
structure ControllerAllocationSettings where
  Minimum : MinimumAllocationSettings
  deriving DecidableEq, Repr

/-- The capability walk of `GetMinimumAllocationSize`: the first block
capability selects the block quantity (device-class override first, default
otherwise), the first mount capability selects the filesystem quantity for
its fs type from the same lookup chain, and a capability with neither access
type is skipped.  An exhausted walk leaves the zero quantity. -/
def minimumAllocationWalk (settings : ControllerAllocationSettings)
    (deviceClass : String) : List VolumeCapability → Int
  | [] => 0
  | VolumeCapability.block :: _ =>
    match mapFind settings.Minimum.ByDeviceClass deviceClass with
    | some size => size.Block
    | none => settings.Minimum.Default.Block
  | VolumeCapability.mount fsType :: _ =>
    let size := match mapFind settings.Minimum.ByDeviceClass deviceClass with
      | some size => size
      | none => settings.Minimum.Default
    (mapFind size.Filesystem fsType).getD 0
  | VolumeCapability.unspecified :: rest =>
    minimumAllocationWalk settings deviceClass rest

/-- `GetMinimumAllocationSize` returns the resolved quantity, with a negative
result replaced by zero (`quantity.Sign() < 0` check in the source). -/
def ControllerAllocationSettings.GetMinimumAllocationSize
    (settings : ControllerAllocationSettings) (deviceClass : String)
    (capabilities : List VolumeCapability) : Int :=
  let quantity := minimumAllocationWalk settings deviceClass capabilities
  if quantity < 0 then 0 else quantity

/-- `MinMaxAllocationsFromSettings` raises `required` to the resolved minimum
when that minimum is larger (`minimumSize.CmpInt64(required) > 0`) and passes
`limit` through. -/
def ControllerAllocationSettings.MinMaxAllocationsFromSettings
    (settings : ControllerAllocationSettings) (required limit : Int)
    (deviceClass : String) (capabilities : List VolumeCapability) : Int × Int :=
  let minimumSize := settings.GetMinimumAllocationSize deviceClass capabilities
  ((if minimumSize > required then minimumSize else required), limit)

/-- C9: `MinMaxAllocationsFromSettings` returns exactly
`(max required min, limit)` where `min` is the resolved minimum allocation
size (never negative: a negative configured quantity is clamped to zero),
and the limit always passes through unchanged. -/
theorem minMaxAllocations_spec (settings : ControllerAllocationSettings)
    (required limit : Int) (deviceClass : String)
    (capabilities : List VolumeCapability) :
    settings.MinMaxAllocationsFromSettings required limit deviceClass capabilities =
      (max required (settings.GetMinimumAllocationSize deviceClass capabilities),
        limit) ∧
    settings.GetMinimumAllocationSize deviceClass capabilities =
      max 0 (minimumAllocationWalk settings deviceClass capabilities) := by
  constructor
  · simp only [ControllerAllocationSettings.MinMaxAllocationsFromSettings,
      Prod.mk.injEq, and_true]
    rcases le_or_lt (settings.GetMinimumAllocationSize deviceClass capabilities)
      required with hc | hc <;> omega
  · simp only [ControllerAllocationSettings.GetMinimumAllocationSize]
    omega

example :
    (ControllerAllocationSettings.mk ⟨⟨[], 2 ^ 30⟩, []⟩).MinMaxAllocationsFromSettings
      0 (2 ^ 31) ("") [VolumeCapability.block] = (2 ^ 30, 2 ^ 31) := rfl

example :
    (ControllerAllocationSettings.mk ⟨⟨[], -1⟩, []⟩).MinMaxAllocationsFromSettings
      0 (2 ^ 31) ("") [VolumeCapability.block] = (0, 2 ^ 31) := rfl

example :
    (ControllerAllocationSettings.mk ⟨⟨[], 2 ^ 30⟩, []⟩).MinMaxAllocationsFromSettings
      (2 ^ 31) (2 ^ 31) ("") [VolumeCapability.block] = (2 ^ 31, 2 ^ 31) := rfl

/-! ## Domain model (`lvmd/command/lvm.go`, `lvmd/command/lvm_vgs.go`)

The functions below are mirrored from the source statement by statement.
The external `lvm` tool is modelled by an environment (`LvmCtx`): what an
`lvs` invocation would report for a given query, and the outcome of a
mutating `callLVM` invocation.  Functions that spawn subprocesses get a
companion `...Trace` definition listing the argument vectors they invoke,
and `Resize` returns its trace alongside its result. -/

/-- Domain errors: the `ErrNotFound` sentinel and other errors carrying a
message. -/
inductive LvmErr where
  | notFound
  | msg (s : String)
  deriving DecidableEq, Repr

/-- Modelled from the spec: the internal `lv` report row struct is declared
outside the extracted sources; its fields are the ones `lvmd/command/lvm.go`
reads and the `lvs -o` column list requests.  The `float64` percent fields
are carried as rationals (they are only ever copied).  `attr` carries the
parsed attribute record; per the spec a thin pool is recognised by
`VolumeType = ThinPool`. -/
structure lv where
  name : String
  uuid : String
  fullName : String
  path : String
  size : Nat
  major : Nat
  minor : Nat
  origin : String
  originSize : Nat
  poolLV : String
  tags : List String
  attr : LvAttr
  vgName : String
  dataPercent : Rat
  metaDataPercent : Rat
  deriving DecidableEq, Repr

/-- Modelled from the spec: a thin-pool LV is one whose attribute
`VolumeType` is the thin-pool code (`t`); the Go `isThinPool` helper is
outside the extracted sources. -/
def lv.isThinPool (u : lv) : Bool :=
  u.attr.VolumeType == VolumeTypeThinPool

/-- The `vg` report row (`lvmd/command/lvm_vgs.go`), sizes in bytes. -/
structure vg where
  name : String
  uuid : String
  size : Nat
  free : Nat
  deriving DecidableEq, Repr

/-- `VolumeGroup` carries the observed `vg` state and, when populated via
`ListVolumeGroups`, the pre-fetched report rows. -/
structure VolumeGroup where
  state : vg
  reportLvs : List lv
  deriving DecidableEq, Repr

/-- `(vg).Name()` returns the volume group name. -/
def VolumeGroup.Name (g : VolumeGroup) : String := g.state.name

/-- Result of one `lvs` report invocation as `callLVMInto` hands it to
`getLVs`: the decoded report (a list of row lists) and the subprocess error
status. -/
structure LvsResult where
  err : Option LvmErr
  report : List (List lv)

/-- The external LVM world: the report an `lvs <query>` invocation decodes,
and the outcome of a mutating `callLVM` invocation (`none` = success). -/
structure LvmCtx where
  lvsReport : String → LvsResult
  callLVM : List String → Option LvmErr

/-- The query string `getLVs` builds: `vg` or `vg/lv`. -/
def lvQuery (g : VolumeGroup) (lvname : String) : String :=
  if lvname != "" then g.state.name ++ "/" ++ lvname else g.state.name

/-- The argument vector `getLVs` passes to the command adapter. -/
def lvsArgs (name : String) : List String :=
  ["lvs", name, "-o",
   "lv_uuid,lv_name,lv_full_name,lv_path,lv_size,lv_kernel_major,lv_kernel_minor,origin,origin_size,pool_lv,lv_tags,lv_attr,vg_name,data_percent,metadata_percent,pool_lv",
   "--units", "b", "--nosuffix", "--reportformat", "json"]

/-- `getLVs` yields the report rows for a volume group: served from the
cached `reportLvs` when present (restricted to the first row of the given
name, `ErrNotFound` when absent), otherwise decoded from an `lvs`
invocation.  The check order of the uncached path — empty report, then
subprocess error, then empty row list — follows the source. -/
def getLVs (env : LvmCtx) (g : VolumeGroup) (lvname : String) :
    Except LvmErr (List lv) :=
  if g.reportLvs.length > 0 then
    if lvname != "" then
      match g.reportLvs.find? (fun reportLv => reportLv.name == lvname) with
      | some reportLv => .ok [reportLv]
      | none => .error .notFound
    else .ok g.reportLvs
  else
    let res := env.lvsReport (lvQuery g lvname)
    match res.report with
    | [] => .error .notFound
    | first :: _ =>
      match res.err with
      | some e => .error e
      | none => if first.length = 0 then .error .notFound else .ok first

/-- Subprocess invocations performed by `getLVs`: none when served from the
cache, one `lvs` call otherwise. -/
def getLVsTrace (g : VolumeGroup) (lvname : String) : List (List String) :=
  if g.reportLvs.length > 0 then [] else [lvsArgs (lvQuery g lvname)]

/-- `LogicalVolume` as built by `newLogicalVolume`. -/
structure LogicalVolume where
  fullname : String
  name : String
  path : String
  vg : VolumeGroup
  size : Nat
  origin : Option String
  pool : Option String
  devMajor : Nat
  devMinor : Nat
  tags : List String
  deriving DecidableEq, Repr

/-- `fullName` renders the VG-qualified name `vg/lv`. -/
def fullName (name : String) (g : VolumeGroup) : String :=
  g.Name ++ "/" ++ name

/-- `newLogicalVolume` fills every field, deriving `fullname`. -/
def newLogicalVolume (name path : String) (g : VolumeGroup) (size : Nat)
    (origin pool : Option String) (major minor : Nat) (tags : List String) :
    LogicalVolume :=
  ⟨fullName name g, name, path, g, size, origin, pool, major, minor, tags⟩

/-- `convertLV` builds a `LogicalVolume` from a report row: empty `origin`
and `pool_lv` strings become `none`; for a snapshot that is not thin
(origin set, pool unset) the origin size replaces the row size; the kernel
device numbers are narrowed to `uint32`. -/
def VolumeGroup.convertLV (g : VolumeGroup) (u : lv) : LogicalVolume :=
  let size := u.size
  let origin := if u.origin.length > 0 then some u.origin else none
  let pool := if u.poolLV.length > 0 then some u.poolLV else none
  let size := if origin ≠ none ∧ pool = none then u.originSize else size
  newLogicalVolume u.name u.path g size origin pool (u.major % 2 ^ 32)
    (u.minor % 2 ^ 32) u.tags

/-- Go map insertion `ret[k] = v`: replace any existing binding of the key,
bind the key to the new value. -/
def mapPut (m : List (String × LogicalVolume)) (k : String) (v : LogicalVolume) :
    List (String × LogicalVolume) :=
  m.filter (fun p => p.1 != k) ++ [(k, v)]

/-- `ListVolumes` maps row names to converted volumes, skipping thin-pool
rows. -/
def VolumeGroup.ListVolumes (env : LvmCtx) (g : VolumeGroup) (name : String) :
    Except LvmErr (List (String × LogicalVolume)) :=
  match getLVs env g name with
  | .error e => .error e
  | .ok lvs =>
    .ok (lvs.foldl
      (fun ret u => if u.isThinPool then ret else mapPut ret u.name (g.convertLV u))
      [])

/-- `FindVolume` looks the name up in the `ListVolumes` map. -/
def VolumeGroup.FindVolume (env : LvmCtx) (g : VolumeGroup) (name : String) :
    Except LvmErr LogicalVolume :=
  match g.ListVolumes env name with
  | .error e => .error e
  | .ok volumes =>
    match mapFind volumes name with
    | some vol => .ok vol
    | none => .error .notFound

/-- `ThinPool` wraps its volume group and its own report row. -/
structure ThinPool where
  vg : VolumeGroup
  state : lv
  deriving DecidableEq, Repr

/-- `ThinPoolUsage` is the usage record returned by `(pool).Free()`. -/
structure ThinPoolUsage where
  DataPercent : Rat
  MetadataPercent : Rat
  VirtualBytes : Nat
  SizeBytes : Nat
  deriving DecidableEq, Repr

/-- `newThinPool` stores the VG and the row (the name argument is unused in
the source as well). -/
def newThinPool (_name : String) (g : VolumeGroup) (lvm_lv : lv) : ThinPool :=
  ⟨g, lvm_lv⟩

/-- `(pool).Name()` returns the thin pool name. -/
def ThinPool.Name (t : ThinPool) : String := t.state.name

/-- `(pool).Size()` returns the thin pool size. -/
def ThinPool.Size (t : ThinPool) : Nat := t.state.size

/-- `ListPools` collects the thin-pool rows of the volume group. -/
def VolumeGroup.ListPools (env : LvmCtx) (g : VolumeGroup) :
    Except LvmErr (List ThinPool) :=
  match getLVs env g ("") with
  | .error e => .error e
  | .ok lvs =>
    .ok (lvs.foldl
      (fun ret u => if u.isThinPool then ret ++ [newThinPool u.name g u] else ret)
      [])

/-- `(pool).ListVolumes()` filters the volume group listing down to the
volumes whose `pool` field names this thin pool. -/
def ThinPool.ListVolumes (env : LvmCtx) (t : ThinPool) :
    Except LvmErr (List (String × LogicalVolume)) :=
  match t.vg.ListVolumes env ("") with
  | .error e => .error e
  | .ok volumes =>
    .ok (volumes.foldl
      (fun filteredVolumes p =>
        if (match p.2.pool with
            | some poolOfVolume => poolOfVolume == t.Name
            | none => false) then
          mapPut filteredVolumes p.2.name p.2
        else filteredVolumes)
      [])

/-- `(pool).FindVolume(name)`: a volume found in the VG but sitting in no
pool or in a different pool is reported as `ErrNotFound`. -/
def ThinPool.FindVolume (env : LvmCtx) (t : ThinPool) (name : String) :
    Except LvmErr LogicalVolume :=
  match t.vg.FindVolume env name with
  | .error e => .error e
  | .ok volumeCandidate =>
    if volumeCandidate.pool = none ∨ volumeCandidate.pool ≠ some t.Name then
      .error .notFound
    else .ok volumeCandidate

/-- `(pool).Free()` copies the percent and size fields from the pool row and
sums the sizes of the pool member volumes into `VirtualBytes`. -/
def ThinPool.Free (env : LvmCtx) (t : ThinPool) : Except LvmErr ThinPoolUsage :=
  match t.ListVolumes env with
  | .error e => .error e
  | .ok lvs =>
    .ok { DataPercent := t.state.dataPercent
          MetadataPercent := t.state.metaDataPercent
          SizeBytes := t.state.size
          VirtualBytes := lvs.foldl (fun acc p => acc + p.2.size) 0 }

/-- `(lv).Resize(newSize)`: shrinking is rejected up front, resizing to the
current size is a no-op, and otherwise `lvresize -L <size>b <full_name>` is
invoked and the recorded size is refreshed from a re-read of the volume.
The second component lists the invoked subprocess argument vectors. -/
def LogicalVolume.Resize (env : LvmCtx) (l : LogicalVolume) (newSize : Nat) :
    Except LvmErr LogicalVolume × List (List String) :=
  if l.size > newSize then (.error (.msg ("volume cannot be shrunk")), [])
  else if l.size = newSize then (.ok l, [])
  else
    let cmd := ["lvresize", "-L", toString newSize ++ "b", l.fullname]
    match env.callLVM cmd with
    | some e => (.error e, [cmd])
    | none =>
      match l.vg.FindVolume env l.name with
      | .error e => (.error e, cmd :: getLVsTrace l.vg l.name)
      | .ok vol => (.ok { l with size := vol.size }, cmd :: getLVsTrace l.vg l.name)

/-! ### Helper lemmas about strings, map insertion and the listing folds -/

theorem string_ne_empty_length_pos (s : String) (h : s ≠ "") : 0 < s.length := by
  cases s with
  | mk l =>
    cases l with
    | nil => simp at h
    | cons c cs => simp [String.length]

theorem mem_mapPut (m : List (String × LogicalVolume)) (k : String)
    (v : LogicalVolume) (p : String × LogicalVolume) (hp : p ∈ mapPut m k v) :
    p ∈ m ∨ p = (k, v) := by
  unfold mapPut at hp
  rcases List.mem_append.mp hp with h | h
  · exact Or.inl (List.mem_of_mem_filter h)
  · simp at h
    exact Or.inr h

theorem mapPut_keys_nodup (m : List (String × LogicalVolume)) (k : String)
    (v : LogicalVolume) (h : (m.map Prod.fst).Nodup) :
    ((mapPut m k v).map Prod.fst).Nodup := by
  unfold mapPut
  rw [List.map_append, List.nodup_append]
  refine ⟨((List.filter_sublist m).map Prod.fst).nodup h, List.nodup_singleton k, ?_⟩
  intro a ha hk
  simp at hk
  subst hk
  obtain ⟨p, hp, hfst⟩ := List.mem_map.mp ha
  have := (List.mem_filter.mp hp).2
  simp [hfst] at this

/-- Entries produced by a skip-or-insert fold come from the accumulator or
from an inserted element. -/
theorem foldl_skipPut_mem {α : Type} (key : α → String) (val : α → LogicalVolume)
    (skip : α → Bool) :
    ∀ (xs : List α) (acc : List (String × LogicalVolume)) (p : String × LogicalVolume),
      p ∈ xs.foldl (fun ret x => if skip x then ret else mapPut ret (key x) (val x)) acc →
      p ∈ acc ∨ ∃ x ∈ xs, skip x = false ∧ p = (key x, val x) := by
  intro xs
  induction xs with
  | nil =>
    intro acc p hp
    exact Or.inl hp
  | cons x rest ih =>
    intro acc p hp
    rw [List.foldl_cons] at hp
    rcases ih _ p hp with hacc | ⟨y, hy, hsy, hpy⟩
    · by_cases hs : skip x
      · rw [if_pos hs] at hacc
        exact Or.inl hacc
      · rw [if_neg hs] at hacc
        rcases mem_mapPut _ _ _ _ hacc with h | h
        · exact Or.inl h
        · exact Or.inr ⟨x, List.mem_cons_self x rest, Bool.eq_false_iff.mpr hs, h⟩
    · exact Or.inr ⟨y, List.mem_cons_of_mem x hy, hsy, hpy⟩

/-- A skip-or-insert fold preserves distinctness of the keys and the fact
that every value carries its own key as its name. -/
theorem foldl_skipPut_invariant {α : Type} (key : α → String)
    (val : α → LogicalVolume) (skip : α → Bool)
    (hval : ∀ x, (val x).name = key x) :
    ∀ (xs : List α) (acc : List (String × LogicalVolume)),
      (acc.map Prod.fst).Nodup → (∀ p ∈ acc, p.2.name = p.1) →
      (((xs.foldl (fun ret x => if skip x then ret else mapPut ret (key x) (val x)) acc).map
          Prod.fst).Nodup ∧
        ∀ p ∈ xs.foldl (fun ret x => if skip x then ret else mapPut ret (key x) (val x)) acc,
          p.2.name = p.1) := by
  intro xs
  induction xs with
  | nil =>
    intro acc h1 h2
    exact ⟨h1, h2⟩
  | cons x rest ih =>
    intro acc h1 h2
    rw [List.foldl_cons]
    by_cases hs : skip x
    · rw [if_pos hs]
      exact ih acc h1 h2
    · rw [if_neg hs]
      refine ih _ (mapPut_keys_nodup _ _ _ h1) ?_
      intro p hp
      rcases mem_mapPut _ _ _ _ hp with h | h
      · exact h2 p h
      · rw [h]
        exact hval x

/-- An append-if fold is the filtered map. -/
theorem foldl_appendIf_eq {α β : Type} (c : α → Bool) (f : α → β) :
    ∀ (xs : List α) (acc : List β),
      xs.foldl (fun ret x => if c x then ret ++ [f x] else ret) acc
        = acc ++ (xs.filter c).map f := by
  intro xs
  induction xs with
  | nil =>
    intro acc
    simp
  | cons x rest ih =>
    intro acc
    rw [List.foldl_cons]
    by_cases hc : c x
    · rw [if_pos hc, ih, List.filter_cons_of_pos hc]
      simp
    · rw [if_neg hc, ih, List.filter_cons_of_neg hc]

/-- Inserting pairwise-distinct keys that are fresh for the accumulator and
that each carry their own key degenerates `mapPut` into plain append, so a
conditional re-insertion fold is the filter. -/
theorem foldl_condPut_eq (c : String × LogicalVolume → Bool) :
    ∀ (xs : List (String × LogicalVolume)) (acc : List (String × LogicalVolume)),
      (xs.map Prod.fst).Nodup → (∀ p ∈ xs, p.2.name = p.1) →
      (∀ p ∈ xs, p.1 ∉ acc.map Prod.fst) →
      xs.foldl (fun ret p => if c p then mapPut ret p.2.name p.2 else ret) acc
        = acc ++ xs.filter c := by
  intro xs
  induction xs with
  | nil =>
    intro acc _ _ _
    simp
  | cons p rest ih =>
    intro acc hnd hname hfresh
    rw [List.foldl_cons]
    have hpname : p.2.name = p.1 := hname p (List.mem_cons_self p rest)
    have hpfresh : p.1 ∉ acc.map Prod.fst := hfresh p (List.mem_cons_self p rest)
    have hput : mapPut acc p.2.name p.2 = acc ++ [p] := by
      unfold mapPut
      rw [hpname]
      have hfilter : acc.filter (fun q => q.1 != p.1) = acc := by
        apply List.filter_eq_self.mpr
        intro q hq
        have : q.1 ≠ p.1 := by
          intro hEq
          exact hpfresh (List.mem_map.mpr ⟨q, hq, hEq⟩)
        simpa using this
      rw [hfilter]
    by_cases hc : c p
    · rw [if_pos hc, hput, ih (acc ++ [p]) (List.Nodup.of_cons hnd)
        (fun q hq => hname q (List.mem_cons_of_mem p hq)) ?_,
        List.filter_cons_of_pos hc]
      · simp
      · intro q hq
        rw [List.map_append]
        intro hmem
        rcases List.mem_append.mp hmem with h | h
        · exact hfresh q (List.mem_cons_of_mem p hq) h
        · simp only [List.map_cons, List.map_nil, List.mem_singleton] at h
          have : p.1 ∉ rest.map Prod.fst := (List.nodup_cons.mp hnd).1
          exact this (h ▸ List.mem_map.mpr ⟨q, hq, rfl⟩)
    · rw [if_neg hc, ih acc (List.Nodup.of_cons hnd)
        (fun q hq => hname q (List.mem_cons_of_mem p hq))
        (fun q hq => hfresh q (List.mem_cons_of_mem p hq)),
        List.filter_cons_of_neg hc]

/-- Summing sizes with a fold is summing the mapped list. -/
theorem foldl_add_size (l : List (String × LogicalVolume)) :
    ∀ n : Nat, l.foldl (fun acc p => acc + p.2.size) n
      = n + (l.map (fun p => p.2.size)).sum := by
  induction l with
  | nil =>
    intro n
    simp
  | cons p rest ih =>
    intro n
    rw [List.foldl_cons, ih]
    simp [List.sum_cons]
    omega

/-- The `ListVolumes` result has pairwise-distinct keys and each volume is
keyed by its own name. -/
theorem listVolumes_ok_invariant (env : LvmCtx) (g : VolumeGroup) (name : String)
    (vols : List (String × LogicalVolume)) (h : g.ListVolumes env name = .ok vols) :
    (vols.map Prod.fst).Nodup ∧ ∀ p ∈ vols, p.2.name = p.1 := by
  unfold VolumeGroup.ListVolumes at h
  cases hg : getLVs env g name with
  | error e =>
    rw [hg] at h
    cases h
  | ok rows =>
    rw [hg] at h
    injection h with h
    rw [← h]
    exact foldl_skipPut_invariant lv.name (g.convertLV) lv.isThinPool
      (fun u => rfl) rows [] (by simp) (by simp)

/-! ### Claim theorems over the domain model -/

/-- C6: a row observed with a non-empty origin and an empty pool (a non-thin
snapshot) is converted into a volume reporting the origin size; every other
row keeps its own size. -/
theorem convertLV_size_spec (g : VolumeGroup) (u : lv) :
    (u.origin ≠ "" ∧ u.poolLV = "" → (g.convertLV u).size = u.originSize) ∧
    (u.origin = "" ∨ u.poolLV ≠ "" → (g.convertLV u).size = u.size) := by
  constructor
  · rintro ⟨h1, h2⟩
    have hol := string_ne_empty_length_pos u.origin h1
    have hpl : u.poolLV.length = 0 := by rw [h2]; rfl
    simp [VolumeGroup.convertLV, newLogicalVolume, hol, hpl]
  · intro h
    rcases h with h | h
    · have hol : u.origin.length = 0 := by rw [h]; rfl
      simp [VolumeGroup.convertLV, newLogicalVolume, hol]
    · have hpl := string_ne_empty_length_pos u.poolLV h
      simp [VolumeGroup.convertLV, newLogicalVolume, hpl]

/-- C10: `(pool).FindVolume` succeeds only on thin members of the pool
itself; a volume that exists in the VG with no pool or a different pool is
`ErrNotFound`, and VG-level lookup failures pass through. -/
theorem thinPool_findVolume_spec (env : LvmCtx) (t : ThinPool) (n : String) :
    (∀ v, t.FindVolume env n = .ok v →
      t.vg.FindVolume env n = .ok v ∧ v.pool = some t.Name) ∧
    (∀ v, t.vg.FindVolume env n = .ok v →
      (v.pool = none ∨ ∀ q, v.pool = some q → q ≠ t.Name) →
      t.FindVolume env n = .error .notFound) ∧
    (∀ e, t.vg.FindVolume env n = .error e → t.FindVolume env n = .error e) := by
  refine ⟨?_, ?_, ?_⟩
  · intro v hv
    unfold ThinPool.FindVolume at hv
    cases hfind : t.vg.FindVolume env n with
    | error e =>
      rw [hfind] at hv
      cases hv
    | ok c =>
      rw [hfind] at hv
      dsimp only at hv
      by_cases hc : c.pool = none ∨ c.pool ≠ some t.Name
      · rw [if_pos hc] at hv
        cases hv
      · rw [if_neg hc] at hv
        push_neg at hc
        injection hv with hcv
        subst hcv
        exact ⟨rfl, hc.2⟩
  · intro v hv hcond
    unfold ThinPool.FindVolume
    rw [hv]
    dsimp only
    rcases hcond with h | h
    · rw [if_pos (Or.inl h)]
    · cases hp : v.pool with
      | none => rw [if_pos (Or.inl rfl)]
      | some q =>
        have hqn : q ≠ t.Name := h q hp
        have hne : (some q : Option String) ≠ some t.Name := by
          intro hEq
          injection hEq with h2
          exact hqn h2
        rw [if_pos (Or.inr hne)]
  · intro e he
    unfold ThinPool.FindVolume
    rw [he]

/-- C7: `ListVolumes` never returns a thin-pool LV — every returned entry is
the conversion of a report row that is not a thin pool — and `ListPools`
returns exactly the thin-pool rows. -/
theorem listVolumes_no_thinPools (env : LvmCtx) (g : VolumeGroup) :
    (∀ name vols p, g.ListVolumes env name = .ok vols → p ∈ vols →
      ∃ rows, getLVs env g name = .ok rows ∧
        ∃ row ∈ rows, row.isThinPool = false ∧ p = (row.name, g.convertLV row)) ∧
    (∀ rows pools, getLVs env g ("") = .ok rows → g.ListPools env = .ok pools →
      pools = (rows.filter lv.isThinPool).map (fun u => newThinPool u.name g u)) := by
  constructor
  · intro name vols p hvols hp
    unfold VolumeGroup.ListVolumes at hvols
    cases hg : getLVs env g name with
    | error e =>
      rw [hg] at hvols
      cases hvols
    | ok rows =>
      rw [hg] at hvols
      injection hvols with hvols
      rw [← hvols] at hp
      rcases foldl_skipPut_mem lv.name (g.convertLV) lv.isThinPool rows [] p hp with
        h | ⟨row, hrow, hskip, hprow⟩
      · cases h
      · exact ⟨rows, rfl, row, hrow, hskip, hprow⟩
  · intro rows pools hrows hpools
    unfold VolumeGroup.ListPools at hpools
    rw [hrows] at hpools
    injection hpools with hpools
    rw [← hpools]
    exact (foldl_appendIf_eq lv.isThinPool (fun u => newThinPool u.name g u) rows []).trans
      (by simp)

/-- C5: a successful `(pool).Free()` reports the pool size as `SizeBytes`
and the sum of the sizes of exactly the volume-group volumes whose pool
field names this thin pool as `VirtualBytes`. -/
theorem thinPool_free_spec (env : LvmCtx) (t : ThinPool) (usage : ThinPoolUsage)
    (hfree : t.Free env = .ok usage) :
    usage.SizeBytes = t.Size ∧
    ∃ vols, t.vg.ListVolumes env ("") = .ok vols ∧
      usage.VirtualBytes =
        ((vols.filter (fun p => p.2.pool == some t.Name)).map
          (fun p => p.2.size)).sum := by
  unfold ThinPool.Free at hfree
  cases hmembers : t.ListVolumes env with
  | error e =>
    rw [hmembers] at hfree
    cases hfree
  | ok members =>
    rw [hmembers] at hfree
    injection hfree with hfree
    subst hfree
    refine ⟨rfl, ?_⟩
    unfold ThinPool.ListVolumes at hmembers
    cases hvols : t.vg.ListVolumes env ("") with
    | error e =>
      rw [hvols] at hmembers
      cases hmembers
    | ok vols =>
      rw [hvols] at hmembers
      injection hmembers with hmembers
      obtain ⟨hnd, hname⟩ := listVolumes_ok_invariant env t.vg ("") vols hvols
      have hfold := foldl_condPut_eq
        (fun p => match p.2.pool with
          | some poolOfVolume => poolOfVolume == t.Name
          | none => false)
        vols [] hnd hname (by simp)
      rw [hfold, List.nil_append] at hmembers
      refine ⟨vols, rfl, ?_⟩
      rw [← hmembers, foldl_add_size, Nat.zero_add]
      have hcond : ∀ p ∈ vols,
          (match p.2.pool with
            | some poolOfVolume => poolOfVolume == t.Name
            | none => false) = (p.2.pool == some t.Name) := by
        intro p _
        cases p.2.pool <;> rfl
      rw [List.filter_congr hcond]

/-- C3: `Resize` rejects shrinking up front with no subprocess, is a pure
no-op at the current size, and on growth invokes
`lvresize -L <new>b <full_name>` and records the freshly re-observed size
(not the requested one). -/
theorem resize_spec (env : LvmCtx) (l : LogicalVolume) (n : Nat) :
    (n < l.size → l.Resize env n = (.error (.msg ("volume cannot be shrunk")), [])) ∧
    (n = l.size → l.Resize env n = (.ok l, [])) ∧
    (l.size < n →
      (l.Resize env n).2.head? = some (["lvresize", "-L", toString n ++ "b", l.fullname]) ∧
      ∀ v, (l.Resize env n).1 = .ok v →
        ∃ observed, l.vg.FindVolume env l.name = .ok observed ∧
          v = { l with size := observed.size }) := by
  refine ⟨?_, ?_, ?_⟩
  · intro h
    unfold LogicalVolume.Resize
    rw [if_pos h]
  · intro h
    unfold LogicalVolume.Resize
    rw [if_neg (by omega), if_pos (by omega)]
  · intro h
    unfold LogicalVolume.Resize
    rw [if_neg (by omega), if_neg (by omega)]
    dsimp only
    cases hc : env.callLVM (["lvresize", "-L", toString n ++ "b", l.fullname]) with
    | some e =>
      dsimp only
      exact ⟨rfl, fun v hv => by cases hv⟩
    | none =>
      cases hf : l.vg.FindVolume env l.name with
      | error e =>
        dsimp only
        exact ⟨rfl, fun v hv => by cases hv⟩
      | ok vol =>
        dsimp only
        refine ⟨rfl, ?_⟩
        intro v hv
        injection hv with hv
        exact ⟨vol, rfl, hv.symm⟩

/-! ### Concrete sample data for the witnesses -/

def attrThinVolume : LvAttr := ⟨'V', 'w', 'i', '-', 'a', '-', 't', '-', '-'⟩

def attrThinPool : LvAttr := ⟨'t', 'w', 'i', '-', 'a', '-', 't', 'z', '-'⟩

def rowMember : lv :=
  { name := "vol1", uuid := "u1", fullName := "vg0/vol1",
    path := "/dev/vg0/vol1", size := 100, major := 253, minor := 3, origin := "",
    originSize := 0, poolLV := "pool0", tags := [], attr := attrThinVolume,
    vgName := "vg0", dataPercent := 0, metaDataPercent := 0 }

def rowOther : lv := { rowMember with name := "vol2", poolLV := "otherpool", size := 7 }

def rowPool : lv :=
  { rowMember with name := "pool0", poolLV := "", size := 1000, attr := attrThinPool }

def rowSnap : lv :=
  { rowMember with name := "snap1", poolLV := "", origin := "vol1", originSize := 42, size := 7 }

def vgSample : VolumeGroup := ⟨⟨"vg0", "uuidvg0", 10000, 5000⟩, [rowMember, rowOther, rowPool]⟩

def poolSample : ThinPool := ⟨vgSample, rowPool⟩

def envEmpty : LvmCtx := ⟨fun _ => ⟨none, []⟩, fun _ => none⟩

def lvSample : LogicalVolume := vgSample.convertLV rowMember

/-- C6 witness: the non-thin snapshot row reports its origin size. -/
theorem convertLV_size_spec_witness :
    (vgSample.convertLV rowSnap).size = rowSnap.originSize :=
  (convertLV_size_spec vgSample rowSnap).1 ⟨by decide, rfl⟩

/-- C10 witness: `vol2` exists in the VG but belongs to a different pool, so
the thin pool reports `ErrNotFound`. -/
theorem thinPool_findVolume_spec_witness :
    ThinPool.FindVolume envEmpty poolSample ("vol2") = .error .notFound :=
  (thinPool_findVolume_spec envEmpty poolSample ("vol2")).2.1
    (vgSample.convertLV rowOther) rfl
    (Or.inr (fun q hq => by
      have hpool : (vgSample.convertLV rowOther).pool = some ("otherpool") := rfl
      rw [hpool] at hq
      injection hq with h2
      subst h2
      decide))

/-- C7 witness: in a VG holding two plain volumes and one thin pool, each
listed entry stems from a non-thin-pool row. -/
theorem listVolumes_no_thinPools_witness :
    ∃ rows, getLVs envEmpty vgSample ("") = .ok rows ∧
      ∃ row ∈ rows, row.isThinPool = false ∧
        ((("vol1" : String), vgSample.convertLV rowMember) =
          (row.name, vgSample.convertLV row)) :=
  (listVolumes_no_thinPools envEmpty vgSample).1 ("")
    [(("vol1" : String), vgSample.convertLV rowMember),
      (("vol2" : String), vgSample.convertLV rowOther)]
    ((("vol1" : String), vgSample.convertLV rowMember)) rfl (List.mem_cons_self _ _)

/-- C5 witness: the sample pool of size 1000 with one member of size 100. -/
theorem thinPool_free_spec_witness :
    (ThinPoolUsage.mk 0 0 100 1000).SizeBytes = poolSample.Size ∧
    ∃ vols, poolSample.vg.ListVolumes envEmpty ("") = .ok vols ∧
      (ThinPoolUsage.mk 0 0 100 1000).VirtualBytes =
        ((vols.filter (fun p => p.2.pool == some poolSample.Name)).map
          (fun p => p.2.size)).sum :=
  thinPool_free_spec envEmpty poolSample (ThinPoolUsage.mk 0 0 100 1000) rfl

/-- C3 witness: shrink and no-op invoke nothing; growth invokes `lvresize`
and records the re-observed size (here still 100, not the requested 200). -/
theorem resize_spec_witness :
    (LogicalVolume.Resize envEmpty lvSample 50 =
      (.error (.msg ("volume cannot be shrunk")), [])) ∧
    (LogicalVolume.Resize envEmpty lvSample 100 = (.ok lvSample, [])) ∧
    ((LogicalVolume.Resize envEmpty lvSample 200).2.head? =
      some (["lvresize", "-L", toString 200 ++ "b", lvSample.fullname])) ∧
    (∃ observed, lvSample.vg.FindVolume envEmpty lvSample.name = .ok observed ∧
      lvSample = { lvSample with size := observed.size }) :=
  ⟨(resize_spec envEmpty lvSample 50).1 (by decide),
   (resize_spec envEmpty lvSample 100).2.1 (by decide),
   ((resize_spec envEmpty lvSample 200).2.2 (by decide)).1,
   ((resize_spec envEmpty lvSample 200).2.2 (by decide)).2 lvSample rfl⟩
